import Mathlib

/-!
# Verification of the PoE Currency Exchange Helper recognition core

Shallow embedding of the recognition-and-stabilization pipeline of
`src/app.py` (single-file PySide6 application).  Python floats are
modelled as rationals, Python ints as integers (or naturals where the
source only produces non-negative values), `None`/values as `Option`.

The embedding covers:
* `ParseResult` with `key` / `has_ratio` (`app.py` lines 76-97),
* the OCR fallback text parser `OcrParser.parse` and its helpers
  (lines 100-196), including faithful scanners for the four regular
  expressions used by the parser,
* the stability / debounce state machine `_handle_result`
  (lines 1368-1391, 1422-1423) and its reset triggers `_set_region`,
  `_toggle_swap`, `_change_mode` (lines 727-750, 767-776, 929-940),
* the direction resolver `_resolve_mode` (lines 1452-1484),
* `_compute_expected` (lines 1486-1500), `_score_ratio` (1316-1333),
* the 1-vs-7 digit shape classifier `_classify_digit_1_7`
  (lines 1116-1157) and the gap-split fallback `_split_ratio_by_gap`
  (lines 1066-1097), both over an abstract binary pixel grid.
-/

namespace PoeHelper

/-! ## Python rounding

`round(x)` in Python 3 rounds to the nearest integer with ties going to
the even integer (banker's rounding); `round(x, 2)` rounds to two
decimal places the same way. -/

/-- Python 3 `round(q)`: nearest integer, ties to even. -/
def pyRound (q : ℚ) : ℤ :=
  let f : ℤ := ⌊q⌋
  let frac : ℚ := q - f
  if frac > 1/2 then f + 1
  else if frac < 1/2 then f
  else if f % 2 = 0 then f else f + 1

/-- Python 3 `round(q, 2)`: round to 2 decimal places, ties to even. -/
def pyRound2 (q : ℚ) : ℚ := (pyRound (q * 100) : ℚ) / 100

/-! ## ParseResult (`app.py` 76-97) -/

/-- Mirror of the frozen dataclass `ParseResult`. -/
structure ParseResult where
  items : Option ℤ
  listing_price : Option ℤ
  ratio_num : Option ℚ
  ratio_den : Option ℚ
  raw_text : String
  left_value : Option ℤ := none
  right_value : Option ℤ := none
deriving DecidableEq, Repr

/-- The stability key of a reading: rounded ratio (2 decimals) plus the
two box values (`ParseResult.key`). -/
def ParseResult.key (r : ParseResult) : Option ℚ × Option ℚ × Option ℤ × Option ℤ :=
  (r.ratio_num.map pyRound2, r.ratio_den.map pyRound2, r.left_value, r.right_value)

/-- `ParseResult.has_ratio`: both ratio parts present and the
denominator's magnitude above `1e-9`. -/
def ParseResult.hasRatio (r : ParseResult) : Bool :=
  r.ratio_num.isSome && r.ratio_den.isSome &&
    (match r.ratio_den with
     | some d => decide (|d| > 1/1000000000)
     | none => false)

/-! ## Validity, expected values, scoring -/

/-- `MainWindow._is_valid_result` (`app.py` 1502-1512). -/
def is_valid_result (r : ParseResult) : Bool :=
  if ¬ r.hasRatio then false
  else if r.left_value = none ∧ r.right_value = none then false
  else if (match r.left_value with | some v => decide (v ≤ 0) | none => false) then false
  else if (match r.right_value with | some v => decide (v ≤ 0) | none => false) then false
  else true

/-- `MainWindow._compute_expected` (`app.py` 1486-1500). -/
def compute_expected (left_input right_input : Option ℤ) (result : ParseResult) :
    Option ℤ × Option ℤ :=
  if ¬ result.hasRatio then (none, none)
  else match result.ratio_num, result.ratio_den with
    | some num, some den =>
        if |num| < 1/1000000000 then (none, none)
        else (right_input.map fun rv => pyRound ((rv : ℚ) * (num / den)),
              left_input.map fun lv => pyRound ((lv : ℚ) * (den / num)))
    | _, _ => (none, none)

/-- `MainWindow._score_ratio` (`app.py` 1316-1333). -/
def score_ratio (num den : ℚ) (explicit_decimal inferred_decimal : Bool) : ℤ :=
  let s0 : ℤ := 0
  let s1 := if num > 0 ∧ den > 0 then s0 + 10 else s0
  let s2 := if |num - 1| < 1/1000000 ∨ |den - 1| < 1/1000000 then s1 + 4 else s1
  let s3 := if num ≤ 10000 ∧ den ≤ 10000 then s2 + 4 else s2
  let s4 := if num ≤ 1000 ∧ den ≤ 1000 then s3 + 2 else s3
  let s5 := if explicit_decimal then s4 + 3 else s4
  let s6 := if inferred_decimal then s5 + 1 else s5
  if |num - den| > 1/1000000 then s6 + 1 else s6

/-! ## Application state (`MainWindow.__init__`, `app.py` 315-322) -/

/-- Directional mode actually used for a recommendation. -/
inductive Dir where
  | fromLeft
  | fromRight
deriving DecidableEq, Repr

/-- User-selected calculation mode (`self._calc_mode`). -/
inductive CalcMode where
  | auto
  | fromLeft
  | fromRight
deriving DecidableEq, Repr

/-- The fields of `MainWindow` mutated by the recognition cycle and the
configuration handlers. -/
structure AppState where
  last_good : Option ParseResult
  bad_streak : ℕ
  pending_key : Option (Option ℚ × Option ℚ × Option ℤ × Option ℤ)
  pending_count : ℕ
  swap_sides : Bool
  calc_mode : CalcMode
  auto_direction : Dir
  last_inputs : Option (ℤ × ℤ)
deriving DecidableEq, Repr

/-- Initial state (`app.py` 315-322): no last good reading, empty
pending state, no swap, auto mode, direction seeded `from_right`. -/
def initState : AppState :=
  { last_good := none
    bad_streak := 0
    pending_key := none
    pending_count := 0
    swap_sides := false
    calc_mode := CalcMode.auto
    auto_direction := Dir.fromRight
    last_inputs := none }

/-! ## Direction resolver (`MainWindow._resolve_mode`, `app.py` 1452-1484)

The Python method reads `_calc_mode`, `_auto_direction`, `_last_inputs`
and mutates `_auto_direction`; it is embedded as a function returning the
resolved direction together with the updated state. -/

def CalcMode.toDir : CalcMode → Dir
  | CalcMode.auto => Dir.fromRight   -- unreachable in the source paths below
  | CalcMode.fromLeft => Dir.fromLeft
  | CalcMode.fromRight => Dir.fromRight

def resolve_mode (s : AppState) (left_input right_input : Option ℤ)
    (ratio_num ratio_den : Option ℚ) : Dir × AppState :=
  if s.calc_mode ≠ CalcMode.auto then (s.calc_mode.toDir, s)
  else match left_input, right_input with
    | none, some _ => (Dir.fromRight, s)
    | some _, none => (Dir.fromLeft, s)
    | none, none => (s.auto_direction, s)
    | some l, some r =>
        let dir1 :=
          match ratio_num, ratio_den with
          | some num, some den =>
              if den ≠ 0 then
                if num < den then Dir.fromLeft
                else if num > den then Dir.fromRight
                else s.auto_direction
              else s.auto_direction
          | _, _ => s.auto_direction
        match s.last_inputs with
        | none => (dir1, { s with auto_direction := dir1 })
        | some (ll, lr) =>
            let left_delta := |l - ll|
            let right_delta := |r - lr|
            if left_delta = 0 ∧ right_delta = 0 then
              (dir1, { s with auto_direction := dir1 })
            else
              let dir2 := if left_delta ≥ right_delta then Dir.fromLeft else Dir.fromRight
              (dir2, { s with auto_direction := dir2 })

/-! ## Stability machine (`MainWindow._handle_result`, `app.py` 1368-1442)

Only the state-mutating parts are embedded: the debounce block
(1371-1385), the displayed reading (1387-1390), the `_resolve_mode` call
(1408) which mutates `_auto_direction`, and the `_last_inputs` update
(1422-1423). -/

/-- Debounce block of `_handle_result` (`app.py` 1371-1385). -/
def stability_update (s : AppState) (result : ParseResult) : AppState :=
  if is_valid_result result then
    let key := result.key
    let count := if some key = s.pending_key then s.pending_count + 1 else 1
    let s' := { s with pending_key := some key, pending_count := count }
    if count ≥ 2 then { s' with last_good := some result, bad_streak := 0 } else s'
  else
    { s with pending_key := none, pending_count := 0, bad_streak := s.bad_streak + 1 }

/-- The reading displayed by `_handle_result` (`app.py` 1387-1390),
computed after the debounce block updated `last_good`. -/
def displayed (s' : AppState) (result : ParseResult) : ParseResult :=
  if is_valid_result result then result
  else match s'.last_good with
    | some g => g
    | none => result

/-- Direction computed inside `_handle_result` (`app.py` 1408). -/
def handle_result_dir (s : AppState) (result : ParseResult) : Dir :=
  let s1 := stability_update s result
  let d := displayed s1 result
  (resolve_mode s1 d.left_value d.right_value d.ratio_num d.ratio_den).1

/-- Full state effect of `_handle_result`. -/
def handle_result (s : AppState) (result : ParseResult) : AppState :=
  let s1 := stability_update s result
  let d := displayed s1 result
  let s2 := (resolve_mode s1 d.left_value d.right_value d.ratio_num d.ratio_den).2
  match d.left_value, d.right_value with
  | some l, some r =>
      if is_valid_result result then { s2 with last_inputs := some (l, r) } else s2
  | _, _ => s2

/-! ## Reset triggers (`app.py` 727-750, 767-776, 929-940) -/

/-- State effect of `MainWindow._set_region` (`app.py` 741-743): all
target branches clear the same stability fields. -/
def set_region (s : AppState) : AppState :=
  { s with last_good := none, pending_key := none, pending_count := 0 }

/-- State effect of `MainWindow._toggle_swap` (`app.py` 767-772);
`checked` is the result of `state == Qt.CheckState.Checked`. -/
def toggle_swap (s : AppState) (checked : Bool) : AppState :=
  { s with swap_sides := checked, last_good := none, pending_key := none,
           pending_count := 0, last_inputs := none }

/-- State effect of `MainWindow._change_mode` (`app.py` 929-937). -/
def change_mode (s : AppState) (index : ℤ) : AppState :=
  let mode := if index = 1 then CalcMode.fromRight
              else if index = 2 then CalcMode.fromLeft
              else CalcMode.auto
  { s with calc_mode := mode, last_inputs := none }

/-! ## Event system for reachability -/

/-- The external events that touch the stability state. -/
inductive Event where
  | processResult (r : ParseResult)
  | setRegion
  | toggleSwap (checked : Bool)
  | changeMode (index : ℤ)

/-- One step of the application's mutable state. -/
def step (s : AppState) : Event → AppState
  | Event.processResult r => handle_result s r
  | Event.setRegion => set_region s
  | Event.toggleSwap b => toggle_swap s b
  | Event.changeMode i => change_mode s i

/-- Run a sequence of events from the initial state. -/
def run (events : List Event) : AppState :=
  events.foldl step initState

/-! ## Binary pixel grids

`_classify_digit_1_7` and `_split_ratio_by_gap` both start by passing
their image through `_binarize_for_ratio` and then only test
`pixels[x, y] > 0`.  The embedding takes the resulting binary image as a
predicate `pix x y` (true iff the pixel is foreground), together with
the explicit width and height.  Fractional constants of the source
(`0.25`, `0.15`, ...) multiply small integers, where Python's float
arithmetic agrees with exact rational arithmetic, so `int(h * 0.25)` and
`int(h * 0.15)` are embedded as `h / 4` and `3 * h / 20`. -/

/-- Number of foreground pixels in one column (`x` fixed, `y < h`). -/
def colCount (pix : ℕ → ℕ → Bool) (x h : ℕ) : ℕ :=
  (List.range h).countP fun y => pix x y

/-- Number of foreground pixels in the rectangle
`x0 ≤ x < x1`, `y0 ≤ y < y1`. -/
def rectCount (pix : ℕ → ℕ → Bool) (x0 x1 y0 y1 : ℕ) : ℕ :=
  ((List.range (y1 - y0)).map fun dy =>
    (List.range (x1 - x0)).countP fun dx => pix (x0 + dx) (y0 + dy)).sum

/-- Foreground density over the top quarter of rows
(`app.py` 1124-1130). -/
def topRatioOf (w h : ℕ) (pix : ℕ → ℕ → Bool) : ℚ :=
  let topRows := max 1 (h / 4)
  (rectCount pix 0 w 0 topRows : ℚ) / ((topRows : ℚ) * w)

/-- Foreground density over the central vertical band of columns
`max 0 (w/2 - 1) ≤ x < min w (w/2 + 2)` (`app.py` 1132-1139). -/
def vertRatioOf (w h : ℕ) (pix : ℕ → ℕ → Bool) : ℚ :=
  let colStart := max 0 (w / 2 - 1)
  let colEnd := min w (colStart + 3)
  (rectCount pix colStart colEnd 0 h : ℚ) / ((h : ℚ) * (max 1 (colEnd - colStart) : ℚ))

/-- Foreground density over the upper-right quadrant
(`app.py` 1141-1147). -/
def urRatioOf (w h : ℕ) (pix : ℕ → ℕ → Bool) : ℚ :=
  let area := max 1 ((w - w / 2) * (h / 2))
  (rectCount pix (w / 2) w 0 (h / 2) : ℚ) / (area : ℚ)

/-- `MainWindow._classify_digit_1_7` (`app.py` 1116-1157), from the
binarized crop onward. -/
def classify_digit_1_7 (w h : ℕ) (pix : ℕ → ℕ → Bool) : Option Char :=
  if w < 2 ∨ h < 2 then none
  else
    let top_ratio := topRatioOf w h pix
    let vert_ratio := vertRatioOf w h pix
    let upper_right_ratio := urRatioOf w h pix
    if top_ratio ≥ 1/2 ∧ vert_ratio < 7/10 then some '7'
    else if top_ratio ≤ 7/20 ∧ vert_ratio ≥ 13/20 then some '1'
    else if upper_right_ratio > 7/20 ∧ top_ratio > 2/5 then some '7'
    else if vert_ratio > upper_right_ratio + 1/5 then some '1'
    else none

/-! ## Gap-split fallback (`MainWindow._split_ratio_by_gap`, 1066-1097)

The Python loop seeds `min_count`/`min_idx` with `None` and replaces
them on a strictly smaller count, so after the first iteration it is an
argmin fold seeded with the first scanned column; the embedding seeds
the fold with the first column of the scanned range directly.  The
source returns the two crops of the input image; the embedding returns
the split column index, applying the same guards (including the crop
width checks `min_idx ≥ 2` and `width - min_idx - 1 ≥ 2`). -/

/-- Argmin scan: `best` is the (index, count) pair so far; a new column
replaces it only on a strictly smaller count. -/
def gapScan (f : ℕ → ℕ) : List ℕ → ℕ × ℕ → ℕ × ℕ
  | [], best => best
  | x :: xs, best => if f x < best.2 then gapScan f xs (x, f x) else gapScan f xs best

/-- `MainWindow._split_ratio_by_gap`, returning the split column.  The
scanned range is `range(int(w * 0.25), int(w * 0.75))`, i.e. columns
`w / 4 + i` for `i < 3 * w / 4 - w / 4`. -/
def split_ratio_by_gap (w h : ℕ) (pix : ℕ → ℕ → Bool) : Option ℕ :=
  if w < 6 ∨ h < 4 then none
  else
    match (List.range (3 * w / 4 - w / 4)).map (w / 4 + ·) with
    | [] => none
    | x :: xs =>
        let best := gapScan (fun c => colCount pix c h) xs (x, colCount pix x h)
        if best.2 > max 2 (3 * h / 20) then none
        else if best.1 < 2 ∨ w - (best.1 + 1) < 2 then none
        else some best.1

/-! ## Text primitives for `OcrParser`

The fallback parser works on Python `str`; the embedding works on
`List Char`.  `\d` is embedded as the ASCII digits and `\s` / `str.strip`
/ `str.splitlines` use Python's whitespace and line-break sets. -/

/-- Python `\s` (and `str.strip` default) character set. -/
def isPySpace (c : Char) : Bool :=
  (([0x20, 0x09, 0x0a, 0x0d, 0x0b, 0x0c, 0x1c, 0x1d, 0x1e, 0x1f, 0x85, 0xa0,
     0x1680, 0x2000, 0x2001, 0x2002, 0x2003, 0x2004, 0x2005, 0x2006, 0x2007,
     0x2008, 0x2009, 0x200a, 0x2028, 0x2029, 0x202f, 0x205f, 0x3000] : List ℕ)).contains c.toNat

/-- Python `str.splitlines` line-break set (`\r\n` is handled as one
boundary by `splitlinesPy`). -/
def isLineBreak (c : Char) : Bool :=
  (([0x0a, 0x0d, 0x0b, 0x0c, 0x1c, 0x1d, 0x1e, 0x85, 0x2028, 0x2029] : List ℕ)).contains c.toNat

/-- ASCII lower-casing (`str.lower`; the parser only compares against
ASCII keywords). -/
def asciiLower (c : Char) : Char :=
  if 'A' ≤ c ∧ c ≤ 'Z' then Char.ofNat (c.toNat + 32) else c

/-- `str.strip()`. -/
def pyStrip (cs : List Char) : List Char :=
  ((cs.dropWhile isPySpace).reverse.dropWhile isPySpace).reverse

/-- Worker for `splitlinesPy`. -/
def splitlinesGo : List Char → List Char → List (List Char)
  | [], acc => if acc = [] then [] else [acc.reverse]
  | '\r' :: '\n' :: rest, acc => acc.reverse :: splitlinesGo rest []
  | c :: rest, acc =>
      if isLineBreak c then acc.reverse :: splitlinesGo rest []
      else splitlinesGo rest (c :: acc)

/-- `str.splitlines()`. -/
def splitlinesPy (cs : List Char) : List (List Char) := splitlinesGo cs []

/-- `"needle" in haystack` (substring test). -/
def hasSub (hay needle : List Char) : Bool :=
  match hay with
  | [] => needle = []
  | _ :: rest => needle.isPrefixOf hay || hasSub rest needle

/-- Numeric value of a digit run. -/
def digitsVal (ds : List Char) : ℕ :=
  ds.foldl (fun a c => 10 * a + (c.toNat - '0'.toNat)) 0

/-- `float(token.replace(",", "."))` for a token shaped
`digits [sep digits]` as matched by the ratio pattern. -/
def tokVal (tok : List Char) : ℚ :=
  let t := tok.map fun c => if c = ',' then '.' else c
  let ip := t.takeWhile Char.isDigit
  match t.drop ip.length with
  | '.' :: fs => (digitsVal ip : ℚ) + (digitsVal fs : ℚ) / (10 ^ fs.length : ℕ)
  | _ => (digitsVal ip : ℚ)

/-- `int(q)` for the non-negative values produced by the parser. -/
def intTruncNat (q : ℚ) : ℕ := (⌊q⌋).toNat

/-! ## The regex scanners

`OcrParser` uses four patterns (`app.py` 101-104):
`ratio_re = (\d{1,6}(?:[.,]\d{1,2})?)\s*[:/]\s*(\d{1,6}(?:[.,]\d{1,2})?)`,
`items_re = (\d{1,6})\s*items?`, `price_re = (\d{1,8})\s*(?:orbs?|orb)`
and `number_re = (\d{1,8})`.  Each is embedded as a scanner with
Python's `re` semantics: `search` tries start positions left to right,
quantifiers are greedy with backtracking, `finditer` yields
non-overlapping matches continuing at each match's end. -/

/-- Greedy parse of `\d{1,6}(?:[.,]\d{1,2})?` at the end of the pattern
(no continuation, so the greedy maximum always stands).  Returns the
matched token and the remaining suffix. -/
def ratioGroup2 (cs : List Char) : Option (List Char × List Char) :=
  let ds := (cs.takeWhile Char.isDigit).take 6
  if ds.length = 0 then none
  else
    let rest := cs.drop ds.length
    match rest with
    | c :: more =>
        if c = '.' ∨ c = ',' then
          let fs := (more.takeWhile Char.isDigit).take 2
          if fs.length = 0 then some (ds, rest)
          else some (ds ++ c :: fs, more.drop fs.length)
        else some (ds, rest)
    | [] => some (ds, rest)

/-- Continuation after group 1 of the ratio pattern:
`\s*[:/]\s*` then group 2. -/
def ratioTail (g1 rest : List Char) : Option (List Char × List Char × List Char) :=
  match rest.dropWhile isPySpace with
  | c :: r2 =>
      if c = ':' ∨ c = '/' then
        match ratioGroup2 (r2.dropWhile isPySpace) with
        | some (g2, r4) => some (g1, g2, r4)
        | none => none
      else none
  | [] => none

/-- Candidates for group 1 `\d{1,6}(?:[.,]\d{1,2})?` in the order a
backtracking matcher tries them: longer digit runs first, and for each
run the decimal variant (longer fraction first) before the plain run. -/
def ratioGroup1Cands (cs : List Char) : List (List Char × List Char) :=
  let run := (cs.takeWhile Char.isDigit).take 6
  ((List.range run.length).map fun i => run.length - i).flatMap fun k =>
    let ds := cs.take k
    let after := cs.drop k
    let decCands :=
      match after with
      | c :: more =>
          if c = '.' ∨ c = ',' then
            let frun := (more.takeWhile Char.isDigit).take 2
            ((List.range frun.length).map fun j => frun.length - j).map fun m =>
              (ds ++ c :: more.take m, more.drop m)
          else []
      | [] => []
    decCands ++ [(ds, after)]

/-- Match of the full ratio pattern anchored at the start of `cs`,
returning both groups and the suffix after the match. -/
def ratioMatchAt (cs : List Char) : Option (List Char × List Char × List Char) :=
  (ratioGroup1Cands cs).foldl (fun acc c => acc <|> ratioTail c.1 c.2) none

/-- `ratio_re.search`: first match over all start positions. -/
def ratio_search : List Char → Option (List Char × List Char)
  | [] => none
  | c :: rest =>
      match ratioMatchAt (c :: rest) with
      | some (g1, g2, _) => some (g1, g2)
      | none => ratio_search rest

/-- `ratio_re.finditer` (fuel-bounded: each step consumes at least one
character, so `cs.length` fuel is always enough). -/
def ratioFinditerGo : ℕ → List Char → List (List Char × List Char)
  | 0, _ => []
  | _ + 1, [] => []
  | fuel + 1, c :: rest =>
      match ratioMatchAt (c :: rest) with
      | some (g1, g2, after) => (g1, g2) :: ratioFinditerGo fuel after
      | none => ratioFinditerGo fuel rest

/-- `OcrParser._collect_ratios` (`app.py` 174-183). -/
def collect_ratios (cs : List Char) : List (ℚ × ℚ) :=
  (ratioFinditerGo cs.length cs).map fun g => (tokVal g.1, tokVal g.2)

/-- `number_re.search`: value of the first run of up to 8 digits. -/
def number_search : List Char → Option ℕ
  | [] => none
  | c :: rest =>
      if c.isDigit then some (digitsVal (((c :: rest).takeWhile Char.isDigit).take 8))
      else number_search rest

/-- `number_re.finditer` (fuel-bounded as above). -/
def numberFinditerGo : ℕ → List Char → List ℕ
  | 0, _ => []
  | _ + 1, [] => []
  | fuel + 1, c :: rest =>
      if c.isDigit then
        let ds := ((c :: rest).takeWhile Char.isDigit).take 8
        digitsVal ds :: numberFinditerGo fuel ((c :: rest).drop ds.length)
      else numberFinditerGo fuel rest

/-- `OcrParser._extract_numbers` (`app.py` 171-172). -/
def extract_numbers (cs : List Char) : List ℕ := numberFinditerGo cs.length cs

/-- `items_re.search`: `(\d{1,6})\s*items?` (case-insensitive).  Taking
fewer than the greedy maximum of digits leaves the next character a
digit, where `\s*item` cannot match, so only the greedy run is tried. -/
def items_search : List Char → Option ℕ
  | [] => none
  | c :: rest =>
      (if c.isDigit then
        let ds := ((c :: rest).takeWhile Char.isDigit).take 6
        let after := ((c :: rest).drop ds.length).dropWhile isPySpace
        if (after.take 4).map asciiLower = [ 'i', 't', 'e', 'm' ] then some (digitsVal ds)
        else none
      else none) <|> items_search rest

/-- `price_re.search`: `(\d{1,8})\s*(?:orbs?|orb)` (case-insensitive);
both alternates require `orb`, so the optional `s` cannot affect
success. -/
def price_search : List Char → Option ℕ
  | [] => none
  | c :: rest =>
      (if c.isDigit then
        let ds := ((c :: rest).takeWhile Char.isDigit).take 8
        let after := ((c :: rest).drop ds.length).dropWhile isPySpace
        if (after.take 3).map asciiLower = [ 'o', 'r', 'b' ] then some (digitsVal ds)
        else none
      else none) <|> price_search rest

/-! ## `OcrParser` helpers (`app.py` 128-196) -/

/-- `OcrParser._find_number_near_keyword` (`app.py` 160-169). -/
def find_number_near_keyword (kw : List Char) : List (List Char) → Option ℕ
  | [] => none
  | l :: rest =>
      if hasSub (l.map asciiLower) kw then
        match number_search l with
        | some v => some v
        | none =>
            match rest with
            | l2 :: _ =>
                match number_search l2 with
                | some v => some v
                | none => find_number_near_keyword kw rest
            | [] => none
      else find_number_near_keyword kw rest

/-- First-match loop of `_find_items` (`app.py` 147-150). -/
def scanItems : List (List Char) → Option ℕ
  | [] => none
  | l :: rest => items_search l <|> scanItems rest

/-- `OcrParser._find_items` (`app.py` 146-151). -/
def find_items (lines : List (List Char)) : Option ℕ :=
  scanItems lines <|> find_number_near_keyword [ 'i', 't', 'e', 'm' ] lines

/-- First-match loop of `_find_price` (`app.py` 154-157). -/
def scanPrice : List (List Char) → Option ℕ
  | [] => none
  | l :: rest => price_search l <|> scanPrice rest

/-- `OcrParser._find_price` (`app.py` 153-158). -/
def find_price (lines : List (List Char)) : Option ℕ :=
  scanPrice lines <|> find_number_near_keyword [ 'p', 'r', 'i', 'c', 'e' ] lines

/-- Labeled-line loop of `_find_ratio` (`app.py` 129-139): a line
containing "ratio" is searched, then the following line; the float
conversions of the matched groups cannot raise for tokens of the matched
shape. -/
def findRatioLabeled : List (List Char) → Option (ℚ × ℚ)
  | [] => none
  | l :: rest =>
      if hasSub (l.map asciiLower) [ 'r', 'a', 't', 'i', 'o' ] then
        match ratio_search l with
        | some (g1, g2) => some (tokVal g1, tokVal g2)
        | none =>
            match rest with
            | l2 :: _ =>
                match ratio_search l2 with
                | some (g1, g2) => some (tokVal g1, tokVal g2)
                | none => findRatioLabeled rest
            | [] => none
      else findRatioLabeled rest

/-- Python `max(ratios, key=lambda pair: (pair[0], pair[1]))`: first
element with the lexicographically largest pair. -/
def maxByPair : List (ℚ × ℚ) → Option (ℚ × ℚ)
  | [] => none
  | p :: ps =>
      some (ps.foldl (fun best q =>
        if best.1 < q.1 ∨ (best.1 = q.1 ∧ best.2 < q.2) then q else best) p)

/-- `" ".join(lines)`. -/
def joinSpace (lines : List (List Char)) : List Char :=
  List.intercalate [ ' ' ] lines

/-- `OcrParser._find_ratio` (`app.py` 128-144). -/
def find_ratio (lines : List (List Char)) : Option ℚ × Option ℚ :=
  match findRatioLabeled lines with
  | some (a, b) => (some a, some b)
  | none =>
      match maxByPair (collect_ratios (joinSpace lines)) with
      | some (a, b) => (some a, some b)
      | none => (none, none)

/-- `OcrParser._extract_ratio_numbers` (`app.py` 185-189). -/
def extract_ratio_numbers (cs : List Char) : List ℕ :=
  (collect_ratios cs).flatMap fun p => [intTruncNat p.1, intTruncNat p.2]

/-- `OcrParser._remove_once` (`app.py` 191-196): remove the first
occurrence of `target`, no-op when absent. -/
def remove_once : List ℕ → ℕ → List ℕ
  | [], _ => []
  | v :: vs, t => if v = t then vs else v :: remove_once vs t

/-- Python `min` over a nonempty list (only applied under the
`if numbers:` guard). -/
def minList : List ℕ → ℕ
  | [] => 0
  | x :: xs => xs.foldl min x

/-- Python `max` over a nonempty list. -/
def maxList : List ℕ → ℕ
  | [] => 0
  | x :: xs => xs.foldl max x

/-- Python float truthiness of an optional ratio part
(`ratio_num and ratio_den`): present and nonzero. -/
def truthyQ : Option ℚ → Bool
  | some q => decide (q ≠ 0)
  | none => false

/-- Non-empty stripped lines of the raw text (`app.py` 111). -/
def parsedLines (raw : List Char) : List (List Char) :=
  ((splitlinesPy raw).map pyStrip).filter (· ≠ [])

/-- `OcrParser.parse` (`app.py` 106-126). -/
def parse (text : String) : ParseResult :=
  let raw := pyStrip text.data
  if raw = [] then ⟨none, none, none, none, String.mk raw, none, none⟩
  else
    let lines := parsedLines raw
    let rr := find_ratio lines
    let items0 := find_items lines
    let price0 := find_price lines
    if (items0.isNone || price0.isNone) && truthyQ rr.1 && truthyQ rr.2 then
      let numbers := (extract_ratio_numbers raw).foldl remove_once (extract_numbers raw)
      if numbers ≠ [] then
        let items : Option ℕ := match items0 with
          | none => some (minList numbers)
          | some v => some v
        let price : Option ℕ := match price0 with
          | none => some (maxList numbers)
          | some v => some v
        ⟨items.map (fun v => (v : ℤ)), price.map (fun v => (v : ℤ)),
         rr.1, rr.2, String.mk raw, none, none⟩
      else ⟨(items0.map fun v => (v : ℤ)), (price0.map fun v => (v : ℤ)), rr.1, rr.2, String.mk raw, none, none⟩
    else ⟨(items0.map fun v => (v : ℤ)), (price0.map fun v => (v : ℤ)), rr.1, rr.2, String.mk raw, none, none⟩

/-! ## Supporting lemmas about the state machine -/

/-- `_resolve_mode` mutates only `_auto_direction`. -/
lemma resolve_mode_state_eq (s : AppState) (l r : Option ℤ) (n d : Option ℚ) :
    (resolve_mode s l r n d).2 =
      { s with auto_direction := (resolve_mode s l r n d).2.auto_direction } := by
  unfold resolve_mode
  split
  · rfl
  · rcases l with _ | lv <;> rcases r with _ | rv
    · rfl
    · rfl
    · rfl
    · simp only
      rcases hli : s.last_inputs with _ | ⟨ll, lr⟩
      · simp only [hli]
      · simp only [hli]
        split
        · rfl
        · rfl

/-- Projection corollaries of `resolve_mode_state_eq`. -/
lemma resolve_mode_last_good (s : AppState) (l r : Option ℤ) (n d : Option ℚ) :
    (resolve_mode s l r n d).2.last_good = s.last_good := by
  rw [resolve_mode_state_eq]

lemma resolve_mode_bad_streak (s : AppState) (l r : Option ℤ) (n d : Option ℚ) :
    (resolve_mode s l r n d).2.bad_streak = s.bad_streak := by
  rw [resolve_mode_state_eq]

lemma resolve_mode_pending_key (s : AppState) (l r : Option ℤ) (n d : Option ℚ) :
    (resolve_mode s l r n d).2.pending_key = s.pending_key := by
  rw [resolve_mode_state_eq]

lemma resolve_mode_pending_count (s : AppState) (l r : Option ℤ) (n d : Option ℚ) :
    (resolve_mode s l r n d).2.pending_count = s.pending_count := by
  rw [resolve_mode_state_eq]

/-- The stability fields of `_handle_result` are exactly those of its
debounce block: the direction resolution and `_last_inputs` update do
not touch them. -/
lemma handle_result_stability (s : AppState) (r : ParseResult) :
    (handle_result s r).last_good = (stability_update s r).last_good ∧
    (handle_result s r).bad_streak = (stability_update s r).bad_streak ∧
    (handle_result s r).pending_key = (stability_update s r).pending_key ∧
    (handle_result s r).pending_count = (stability_update s r).pending_count := by
  refine ⟨?_, ?_, ?_, ?_⟩ <;>
  · simp only [handle_result]
    split <;> (try split) <;>
      simp [resolve_mode_last_good, resolve_mode_bad_streak,
            resolve_mode_pending_key, resolve_mode_pending_count]

/-- Field values of the debounce block on a valid reading. -/
lemma stability_update_valid (s : AppState) (r : ParseResult)
    (hv : is_valid_result r = true) :
    stability_update s r =
      (let count := if some r.key = s.pending_key then s.pending_count + 1 else 1
       let s' := { s with pending_key := some r.key, pending_count := count }
       if count ≥ 2 then { s' with last_good := some r, bad_streak := 0 } else s') := by
  unfold stability_update
  rw [if_pos hv]

/-- Field values of the debounce block on an invalid reading. -/
lemma stability_update_invalid (s : AppState) (r : ParseResult)
    (hv : is_valid_result r = false) :
    stability_update s r =
      { s with pending_key := none, pending_count := 0,
               bad_streak := s.bad_streak + 1 } := by
  unfold stability_update
  rw [if_neg (by simp [hv])]

/-- Debounce block on a valid reading whose key matches `pending_key`. -/
lemma stability_update_valid_match (s : AppState) (r : ParseResult)
    (hv : is_valid_result r = true) (hk : some r.key = s.pending_key) :
    stability_update s r =
      (if s.pending_count + 1 ≥ 2 then
        { s with pending_key := some r.key, pending_count := s.pending_count + 1,
                 last_good := some r, bad_streak := 0 }
       else
        { s with pending_key := some r.key, pending_count := s.pending_count + 1 }) := by
  rw [stability_update_valid s r hv]
  simp only [if_pos hk]

/-- Debounce block on a valid reading whose key differs from
`pending_key`. -/
lemma stability_update_valid_mismatch (s : AppState) (r : ParseResult)
    (hv : is_valid_result r = true) (hk : some r.key ≠ s.pending_key) :
    stability_update s r = { s with pending_key := some r.key, pending_count := 1 } := by
  rw [stability_update_valid s r hv]
  simp only [if_neg hk]
  rw [if_neg (by omega)]

/-- Characterization of `_is_valid_result`. -/
lemma is_valid_result_iff (r : ParseResult) :
    is_valid_result r = true ↔
      (r.hasRatio = true ∧ (r.left_value ≠ none ∨ r.right_value ≠ none) ∧
       (∀ v, r.left_value = some v → 0 < v) ∧
       (∀ v, r.right_value = some v → 0 < v)) := by
  unfold is_valid_result
  rcases hl : r.left_value with _ | lv <;> rcases hr : r.right_value with _ | rv <;>
    rcases hR : r.hasRatio <;>
      simp [hl, hr, hR]

/-- All stability fields of `_handle_result` on a valid reading. -/
lemma handle_result_valid_fields (s : AppState) (r : ParseResult)
    (hv : is_valid_result r = true) :
    (handle_result s r).pending_key = some r.key ∧
    (handle_result s r).pending_count =
      (if some r.key = s.pending_key then s.pending_count + 1 else 1) ∧
    (handle_result s r).last_good =
      (if (if some r.key = s.pending_key then s.pending_count + 1 else 1) ≥ 2
       then some r else s.last_good) ∧
    (handle_result s r).bad_streak =
      (if (if some r.key = s.pending_key then s.pending_count + 1 else 1) ≥ 2
       then 0 else s.bad_streak) := by
  obtain ⟨e1, e2, e3, e4⟩ := handle_result_stability s r
  by_cases hk : some r.key = s.pending_key
  · rw [e1, e2, e3, e4, stability_update_valid_match s r hv hk]
    simp only [if_pos hk]
    split <;> rename_i hcond <;> simp [hcond]
  · rw [e1, e2, e3, e4, stability_update_valid_mismatch s r hv hk]
    simp only [if_neg hk]
    norm_num

/-- All stability fields of `_handle_result` on an invalid reading. -/
lemma handle_result_invalid_fields (s : AppState) (r : ParseResult)
    (hv : is_valid_result r = false) :
    (handle_result s r).pending_key = none ∧
    (handle_result s r).pending_count = 0 ∧
    (handle_result s r).last_good = s.last_good ∧
    (handle_result s r).bad_streak = s.bad_streak + 1 := by
  obtain ⟨e1, e2, e3, e4⟩ := handle_result_stability s r
  rw [e1, e2, e3, e4, stability_update_invalid s r hv]
  exact ⟨rfl, rfl, rfl, rfl⟩

/-! ## Concrete readings used by witnesses and counterexamples.

Cycle results are assembled as
`ParseResult(right_input, left_input, num, den, raw, left_input, right_input)`
(`app.py` 997). -/

/-- A valid reading: ratio 3:7, left box 50, right box 80. -/
def readingA : ParseResult := ⟨some 80, some 50, some 3, some 7, "", some 50, some 80⟩

/-- A valid reading with a different key: left box 52 instead of 50. -/
def readingB : ParseResult := ⟨some 80, some 52, some 3, some 7, "", some 52, some 80⟩

/-- An invalid reading (no ratio). -/
def readingBad : ParseResult := ⟨none, none, none, none, "", some 50, some 80⟩

lemma readingA_valid : is_valid_result readingA = true := by
  simp [is_valid_result, readingA, ParseResult.hasRatio]
  norm_num

lemma readingB_valid : is_valid_result readingB = true := by
  simp [is_valid_result, readingB, ParseResult.hasRatio]
  norm_num

lemma readingBad_invalid : is_valid_result readingBad = false := by
  simp [is_valid_result, readingBad, ParseResult.hasRatio]

lemma key_A_ne_B : readingA.key ≠ readingB.key := by
  simp [ParseResult.key, readingA, readingB]

/-- C1.  Stability/debounce law: a reading is valid iff it has a usable
ratio, at least one box value is present, and every present box value is
positive; a valid reading matching `pendingKey` increments
`pendingCount`, otherwise `pendingKey` is reset to the new key with
`pendingCount` 1; `lastGood` becomes the current reading (and
`badStreak` 0) exactly when the new `pendingCount` reaches 2; two
identical valid readings commit `lastGood` after the second; two valid
readings with differing keys from a fresh pending state never update
`lastGood`; an invalid reading never overwrites `lastGood`. -/
theorem c1_stability_debounce :
    (∀ r : ParseResult,
      is_valid_result r = true ↔
        (r.hasRatio = true ∧ (r.left_value ≠ none ∨ r.right_value ≠ none) ∧
         (∀ v, r.left_value = some v → 0 < v) ∧
         (∀ v, r.right_value = some v → 0 < v))) ∧
    (∀ (s : AppState) (r : ParseResult), is_valid_result r = true →
      (some r.key = s.pending_key →
        (handle_result s r).pending_key = s.pending_key ∧
        (handle_result s r).pending_count = s.pending_count + 1) ∧
      (some r.key ≠ s.pending_key →
        (handle_result s r).pending_key = some r.key ∧
        (handle_result s r).pending_count = 1)) ∧
    (∀ (s : AppState) (r : ParseResult), is_valid_result r = true →
      (2 ≤ (handle_result s r).pending_count →
        (handle_result s r).last_good = some r ∧ (handle_result s r).bad_streak = 0) ∧
      ((handle_result s r).pending_count < 2 →
        (handle_result s r).last_good = s.last_good ∧
        (handle_result s r).bad_streak = s.bad_streak)) ∧
    (∀ (s : AppState) (r : ParseResult), is_valid_result r = true →
      (handle_result (handle_result s r) r).last_good = some r) ∧
    (∀ (s : AppState) (r1 r2 : ParseResult), is_valid_result r1 = true →
      is_valid_result r2 = true → r1.key ≠ r2.key → s.pending_key = none →
      (handle_result (handle_result s r1) r2).last_good = s.last_good) ∧
    (∀ (s : AppState) (r : ParseResult), is_valid_result r = false →
      (handle_result s r).last_good = s.last_good) := by
  refine ⟨is_valid_result_iff, ?_, ?_, ?_, ?_, ?_⟩
  · intro s r hv
    obtain ⟨f1, f2, _, _⟩ := handle_result_valid_fields s r hv
    constructor
    · intro hk
      rw [f1, f2, if_pos hk]
      exact ⟨hk, rfl⟩
    · intro hk
      rw [f1, f2, if_neg hk]
      exact ⟨rfl, rfl⟩
  · intro s r hv
    obtain ⟨_, f2, f3, f4⟩ := handle_result_valid_fields s r hv
    rw [f2, f3, f4]
    by_cases hk : some r.key = s.pending_key <;> simp only [if_pos, if_neg, hk] <;>
      constructor <;> intro hc <;> split <;> rename_i hcond <;> simp_all <;> omega
  · intro s r hv
    obtain ⟨f1, f2, _, _⟩ := handle_result_valid_fields s r hv
    obtain ⟨_, _, g3, _⟩ :=
      handle_result_valid_fields (handle_result s r) r hv
    rw [g3, if_pos]
    rw [if_pos f1.symm]
    have : (handle_result s r).pending_count ≥ 1 := by
      rw [f2]; split <;> omega
    omega
  · intro s r1 r2 hv1 hv2 hne hpk
    obtain ⟨f1, f2, f3, _⟩ := handle_result_valid_fields s r1 hv1
    obtain ⟨_, _, g3, _⟩ :=
      handle_result_valid_fields (handle_result s r1) r2 hv2
    have hk1 : some r1.key ≠ s.pending_key := by rw [hpk]; simp
    have hk2 : some r2.key ≠ (handle_result s r1).pending_key := by
      rw [f1]
      simp only [ne_eq, Option.some.injEq]
      exact fun h => hne h.symm
    rw [g3, if_neg (by rw [if_neg hk2]; omega), f3, if_neg (by rw [if_neg hk1]; omega)]
  · intro s r hv
    exact (handle_result_invalid_fields s r hv).2.2.1

/-- Witness for C1 at concrete readings: `readingA` is valid, repeating
it from the initial state commits it as `lastGood`, a differing-key pair
from the initial state leaves `lastGood` empty, and an invalid reading
keeps it unchanged. -/
theorem c1_stability_debounce_witness :
    (readingA.hasRatio = true ∧ (readingA.left_value ≠ none ∨ readingA.right_value ≠ none) ∧
     (∀ v, readingA.left_value = some v → 0 < v) ∧
     (∀ v, readingA.right_value = some v → 0 < v)) ∧
    (handle_result (handle_result initState readingA) readingA).last_good = some readingA ∧
    (handle_result (handle_result initState readingA) readingB).last_good = none ∧
    (handle_result (handle_result (handle_result initState readingA) readingA)
      readingBad).last_good = some readingA := by
  refine ⟨(c1_stability_debounce.1 readingA).mp readingA_valid,
    c1_stability_debounce.2.2.2.1 initState readingA readingA_valid,
    ?_, ?_⟩
  · have h := c1_stability_debounce.2.2.2.2.1 initState readingA readingB
      readingA_valid readingB_valid key_A_ne_B rfl
    simpa [initState] using h
  · have h := c1_stability_debounce.2.2.2.2.2
      (handle_result (handle_result initState readingA) readingA) readingBad
      readingBad_invalid
    rw [h, c1_stability_debounce.2.2.2.1 initState readingA readingA_valid]

/-- The debounce block leaves the resolver-related fields untouched. -/
lemma stability_update_other (s : AppState) (r : ParseResult) :
    (stability_update s r).calc_mode = s.calc_mode ∧
    (stability_update s r).auto_direction = s.auto_direction ∧
    (stability_update s r).last_inputs = s.last_inputs := by
  unfold stability_update
  dsimp only
  split_ifs <;> exact ⟨rfl, rfl, rfl⟩

/-- In auto mode with recorded last inputs and a change on some side,
`_resolve_mode` resolves to `from_left` exactly when the left delta is
at least the right delta. -/
lemma resolve_mode_delta (s : AppState) (l r ll lr : ℤ) (num den : Option ℚ)
    (hc : s.calc_mode = CalcMode.auto) (hli : s.last_inputs = some (ll, lr))
    (hne : ¬(l = ll ∧ r = lr)) :
    (resolve_mode s (some l) (some r) num den).1 =
      if |l - ll| ≥ |r - lr| then Dir.fromLeft else Dir.fromRight := by
  unfold resolve_mode
  rw [if_neg (by simp [hc])]
  simp only [hli]
  rw [if_neg (by
    rintro ⟨h1, h2⟩
    rw [abs_eq_zero, sub_eq_zero] at h1 h2
    exact hne ⟨h1, h2⟩)]

/-- Seeding branch of `_resolve_mode`: auto mode, both sides present,
ratio `3:7`, no last inputs recorded. -/
lemma resolve_mode_seed_37 (s : AppState) (lv rv : ℤ)
    (hc : s.calc_mode = CalcMode.auto) (hli : s.last_inputs = none) :
    resolve_mode s (some lv) (some rv) (some 3) (some 7) =
      (Dir.fromLeft, { s with auto_direction := Dir.fromLeft }) := by
  unfold resolve_mode
  rw [if_neg (by simp [hc])]
  simp only [hli]
  norm_num

/-- State of the resolver after the first cycle accepts `readingA`. -/
lemma handle_first_cycle :
    (handle_result initState readingA).calc_mode = CalcMode.auto ∧
    (handle_result initState readingA).auto_direction = Dir.fromLeft ∧
    (handle_result initState readingA).last_inputs = some (50, 80) := by
  obtain ⟨h1, h2, h3⟩ := stability_update_other initState readingA
  simp only [handle_result]
  rw [show displayed (stability_update initState readingA) readingA = readingA from by
    simp [displayed, readingA_valid]]
  rw [show readingA.left_value = some 50 from rfl,
      show readingA.right_value = some 80 from rfl,
      show readingA.ratio_num = some 3 from rfl,
      show readingA.ratio_den = some 7 from rfl]
  rw [resolve_mode_seed_37 _ _ _ (by rw [h1]; simp [initState]) (by rw [h3]; simp [initState])]
  dsimp only
  rw [if_pos readingA_valid]
  exact ⟨h1.trans rfl, rfl, rfl⟩

/-- C2 counterexample.  Two cycles with left 50 → 52 and right 80 → 80
in auto mode resolve to `from_left`, not `from_right`: the resolver
picks the side with the larger delta as the direction. -/
theorem c2_direction_counterexample :
    handle_result_dir (handle_result initState readingA) readingB = Dir.fromLeft ∧
    Dir.fromLeft ≠ Dir.fromRight := by
  refine ⟨?_, by decide⟩
  obtain ⟨hc, hd, hli⟩ := handle_first_cycle
  obtain ⟨g1, g2, g3⟩ :=
    stability_update_other (handle_result initState readingA) readingB
  simp only [handle_result_dir]
  rw [show displayed (stability_update (handle_result initState readingA) readingB)
        readingB = readingB from by simp [displayed, readingB_valid]]
  rw [show readingB.left_value = some 52 from rfl,
      show readingB.right_value = some 80 from rfl,
      show readingB.ratio_num = some 3 from rfl,
      show readingB.ratio_den = some 7 from rfl]
  rw [resolve_mode_delta _ 52 80 50 80 (some 3) (some 7)
    (by rw [g1, hc]) (by rw [g3, hli]) (by norm_num)]
  norm_num

/-- C2 (amended).  In auto mode, when both box values are present, last
accepted inputs are recorded and the two deltas are not both zero, the
resolver switches direction toward the side that changed MORE (ties to
the left side): `from_left` iff the left delta is ≥ the right delta; in
particular left 50 → 52 with right fixed at 80 resolves `from_left`. -/
theorem c2_direction_amended (s : AppState) (l r ll lr : ℤ) (num den : Option ℚ)
    (hc : s.calc_mode = CalcMode.auto) (hli : s.last_inputs = some (ll, lr))
    (hne : ¬(l = ll ∧ r = lr)) :
    (resolve_mode s (some l) (some r) num den).1 =
      if |l - ll| ≥ |r - lr| then Dir.fromLeft else Dir.fromRight :=
  resolve_mode_delta s l r ll lr num den hc hli hne

/-- Witness for C2 (amended) at the worked example. -/
theorem c2_direction_amended_witness :
    (resolve_mode { initState with last_inputs := some (50, 80) }
      (some 52) (some 80) none none).1 = Dir.fromLeft := by
  have h := c2_direction_amended { initState with last_inputs := some (50, 80) }
    52 80 50 80 none none rfl rfl (by norm_num)
  rw [h]
  norm_num

/-- A state with a committed reading pending, for the C3 and C4
counterexamples. -/
def stateFull : AppState :=
  { initState with last_good := some readingA, pending_key := some readingA.key,
                   pending_count := 5, last_inputs := some (50, 80) }

/-- C3 counterexample.  A directional-mode change does NOT clear
`lastGood` / `pendingKey` / `pendingCount`: from a state holding a good
reading, `_change_mode` leaves all three intact (it clears only
`lastAcceptedInputs`). -/
theorem c3_reset_counterexample :
    (change_mode stateFull 1).last_good = some readingA ∧
    (change_mode stateFull 1).pending_key = some readingA.key ∧
    (change_mode stateFull 1).pending_count = 5 ∧
    (change_mode stateFull 1).last_good ≠ none ∧
    (change_mode stateFull 1).last_inputs = none := by
  refine ⟨rfl, rfl, rfl, ?_, rfl⟩
  simp [change_mode, stateFull]

/-- C3 (amended).  Region re-selection and the side-swap toggle each
clear `lastGood` / `pendingKey` / `pendingCount` (the swap toggle also
clears `lastAcceptedInputs`, region re-selection leaves it unchanged);
a directional-mode change clears only `lastAcceptedInputs` and leaves
`lastGood` / `pendingKey` / `pendingCount` unchanged. -/
theorem c3_reset_amended (s : AppState) (checked : Bool) (index : ℤ) :
    ((set_region s).last_good = none ∧ (set_region s).pending_key = none ∧
     (set_region s).pending_count = 0 ∧ (set_region s).last_inputs = s.last_inputs) ∧
    ((toggle_swap s checked).last_good = none ∧
     (toggle_swap s checked).pending_key = none ∧
     (toggle_swap s checked).pending_count = 0 ∧
     (toggle_swap s checked).last_inputs = none) ∧
    ((change_mode s index).last_inputs = none ∧
     (change_mode s index).last_good = s.last_good ∧
     (change_mode s index).pending_key = s.pending_key ∧
     (change_mode s index).pending_count = s.pending_count) :=
  ⟨⟨rfl, rfl, rfl, rfl⟩, ⟨rfl, rfl, rfl, rfl⟩, ⟨rfl, rfl, rfl, rfl⟩⟩

/-- C4 counterexample.  A valid reading whose key mismatches
`pendingKey` resets `pendingCount` to 1 but does NOT increment
`badStreak`: from `stateFull` (whose `badStreak` is 0), processing
`readingB` leaves `badStreak` at 0. -/
theorem c4_mismatch_counterexample :
    is_valid_result readingB = true ∧
    some readingB.key ≠ stateFull.pending_key ∧
    (handle_result stateFull readingB).pending_count = 1 ∧
    (handle_result stateFull readingB).bad_streak = 0 ∧
    stateFull.bad_streak = 0 := by
  have hk : some readingB.key ≠ stateFull.pending_key := by
    show some readingB.key ≠ some readingA.key
    simp only [ne_eq, Option.some.injEq]
    exact fun h => key_A_ne_B h.symm
  obtain ⟨f1, f2, f3, f4⟩ := handle_result_valid_fields stateFull readingB readingB_valid
  refine ⟨readingB_valid, hk, ?_, ?_, rfl⟩
  · rw [f2, if_neg hk]
  · rw [f4, if_neg hk, if_neg (by omega)]
    rfl

/-- C4 (amended).  `pendingCount` exceeds 1 only when a valid reading's
key equals `pendingKey` (in which case it increments); a key mismatch
resets `pendingCount` to 1 and leaves `badStreak` unchanged; an invalid
reading resets `pendingCount` to 0 and increments `badStreak`. -/
theorem c4_pending_amended (s : AppState) (r : ParseResult) :
    (is_valid_result r = true → some r.key ≠ s.pending_key →
      (handle_result s r).pending_count = 1 ∧
      (handle_result s r).pending_key = some r.key ∧
      (handle_result s r).bad_streak = s.bad_streak) ∧
    (is_valid_result r = false →
      (handle_result s r).pending_count = 0 ∧
      (handle_result s r).pending_key = none ∧
      (handle_result s r).bad_streak = s.bad_streak + 1) ∧
    (2 ≤ (handle_result s r).pending_count →
      is_valid_result r = true ∧ some r.key = s.pending_key ∧
      (handle_result s r).pending_count = s.pending_count + 1) := by
  refine ⟨?_, ?_, ?_⟩
  · intro hv hk
    obtain ⟨f1, f2, _, f4⟩ := handle_result_valid_fields s r hv
    exact ⟨by rw [f2, if_neg hk], f1, by rw [f4, if_neg hk, if_neg (by omega)]⟩
  · intro hv
    obtain ⟨f1, f2, _, f4⟩ := handle_result_invalid_fields s r hv
    exact ⟨f2, f1, f4⟩
  · intro hc
    rcases hv : is_valid_result r with _ | _
    · obtain ⟨_, f2, _, _⟩ := handle_result_invalid_fields s r hv
      rw [f2] at hc
      omega
    · obtain ⟨_, f2, _, _⟩ := handle_result_valid_fields s r hv
      by_cases hk : some r.key = s.pending_key
      · exact ⟨rfl, hk, by rw [f2, if_pos hk]⟩
      · rw [f2, if_neg hk] at hc
        omega

/-- A state whose `pendingKey` already equals `readingA`'s key. -/
def stateMatch : AppState :=
  { initState with pending_key := some readingA.key, pending_count := 1 }

/-- Witness for C4 (amended): mismatch at `stateFull`/`readingB`,
invalid reading at `initState`, and a genuine increment at
`stateMatch`/`readingA`. -/
theorem c4_pending_amended_witness :
    (handle_result stateFull readingB).pending_count = 1 ∧
    (handle_result stateFull readingB).bad_streak = stateFull.bad_streak ∧
    (handle_result initState readingBad).bad_streak = initState.bad_streak + 1 ∧
    (handle_result stateMatch readingA).pending_count = stateMatch.pending_count + 1 := by
  have hk : some readingB.key ≠ stateFull.pending_key := by
    show some readingB.key ≠ some readingA.key
    simp only [ne_eq, Option.some.injEq]
    exact fun h => key_A_ne_B h.symm
  have h1 := (c4_pending_amended stateFull readingB).1 readingB_valid hk
  have h2 := (c4_pending_amended initState readingBad).2.1 readingBad_invalid
  have h3 := (c4_pending_amended stateMatch readingA).2.2 (by
    rw [(handle_result_valid_fields stateMatch readingA readingA_valid).2.1,
        if_pos (show some readingA.key = stateMatch.pending_key from rfl)]
    show (2 : ℕ) ≤ 1 + 1
    norm_num)
  exact ⟨h1.1, h1.2.2, h2.2.2, h3.2.2⟩

/-! ## C10: reachable-state invariant -/

/-- The implicit invariant of the stability machine. -/
def stabilityInv (s : AppState) : Prop :=
  s.pending_key = none ↔ s.pending_count = 0

/-- Every event preserves `stabilityInv`. -/
lemma stabilityInv_step (s : AppState) (e : Event) (h : stabilityInv s) :
    stabilityInv (step s e) := by
  cases e with
  | processResult r =>
      rcases hv : is_valid_result r with _ | _
      · obtain ⟨f1, f2, _, _⟩ := handle_result_invalid_fields s r hv
        simp [stabilityInv, step, f1, f2]
      · obtain ⟨f1, f2, _, _⟩ := handle_result_valid_fields s r hv
        simp only [stabilityInv, step, f1, f2]
        constructor
        · intro hnone; cases hnone
        · intro hzero
          split at hzero <;> omega
  | setRegion => simp [stabilityInv, step, set_region]
  | toggleSwap b => simp [stabilityInv, step, toggle_swap]
  | changeMode i => simpa [stabilityInv, step, change_mode] using h

/-- C10.  In every reachable state (initialization followed by any
sequence of processed readings, region re-selections, side-swap toggles
and mode changes) `pendingKey` is `None` iff `pendingCount` is 0; and
processing a valid reading always leaves `pendingKey` a concrete key
with `pendingCount` at least 1. -/
theorem c10_pending_invariant :
    (∀ events : List Event, stabilityInv (run events)) ∧
    (∀ (s : AppState) (r : ParseResult), is_valid_result r = true →
      (handle_result s r).pending_key = some r.key ∧
      1 ≤ (handle_result s r).pending_count) := by
  constructor
  · have main : ∀ (events : List Event) (s : AppState),
        stabilityInv s → stabilityInv (events.foldl step s) := by
      intro events
      induction events with
      | nil => exact fun s h => h
      | cons e t ih => exact fun s h => ih (step s e) (stabilityInv_step s e h)
    intro events
    exact main events initState (by simp [stabilityInv, initState])
  · intro s r hv
    obtain ⟨f1, f2, _, _⟩ := handle_result_valid_fields s r hv
    refine ⟨f1, ?_⟩
    rw [f2]
    split <;> omega

/-- Witness for C10 at a concrete event sequence and reading. -/
theorem c10_pending_invariant_witness :
    stabilityInv (run [Event.processResult readingA, Event.setRegion]) ∧
    (handle_result initState readingA).pending_key = some readingA.key ∧
    1 ≤ (handle_result initState readingA).pending_count :=
  ⟨c10_pending_invariant.1 [Event.processResult readingA, Event.setRegion],
   (c10_pending_invariant.2 initState readingA readingA_valid).1,
   (c10_pending_invariant.2 initState readingA readingA_valid).2⟩

/-! ## C5: expected values -/

/-- Reading with a zero numerator for the C5 counterexample. -/
def readingZeroNum : ParseResult := ⟨none, none, some 0, some 5, "", none, some 100⟩

/-- Reading with ratio 3:7 for the C5 witness. -/
def reading37 : ParseResult := ⟨none, none, some 3, some 7, "", some 70, some 100⟩

/-- C5 counterexample.  For the reading with ratio 0:5 and right value
100 the ratio is usable (`has_ratio` holds), so the claim predicts
`expectedLeft = round(100 * 0/5) = 0`, but `_compute_expected` returns
`(None, None)` because it also bails out when the numerator's magnitude
is below 1e-9. -/
theorem c5_expected_counterexample :
    readingZeroNum.hasRatio = true ∧
    compute_expected none (some 100) readingZeroNum = (none, none) ∧
    pyRound ((100 : ℚ) * (0 / 5)) = 0 := by
  refine ⟨?_, ?_, ?_⟩
  · simp [ParseResult.hasRatio, readingZeroNum]
    norm_num
  · simp [compute_expected, readingZeroNum]
  · simp [pyRound]

/-- C5 (amended).  When both ratio parts are present, the denominator's
magnitude exceeds 1e-9 and the numerator's magnitude is at least 1e-9,
`expectedLeft = round(right * num/den)` for a present right value and
`expectedRight = round(left * den/num)` for a present left value (None
for an absent side); when the denominator's magnitude is within 1e-9 of
0, `has_ratio` is false and both expected values are None; and a
numerator within 1e-9 of 0 likewise yields both None. -/
theorem c5_expected_amended (l r : Option ℤ) (res : ParseResult) :
    (∀ n d : ℚ, res.ratio_num = some n → res.ratio_den = some d →
      ((1/1000000000 < |d| → 1/1000000000 ≤ |n| →
        compute_expected l r res =
          (r.map fun rv => pyRound ((rv : ℚ) * (n / d)),
           l.map fun lv => pyRound ((lv : ℚ) * (d / n)))) ∧
       (|d| ≤ 1/1000000000 →
        res.hasRatio = false ∧ compute_expected l r res = (none, none)) ∧
       (|n| < 1/1000000000 →
        compute_expected l r res = (none, none)))) ∧
    (res.ratio_num = none ∨ res.ratio_den = none →
      res.hasRatio = false ∧ compute_expected l r res = (none, none)) := by
  constructor
  · intro n d hn hd
    have hR : res.hasRatio = decide (|d| > 1/1000000000) := by
      simp [ParseResult.hasRatio, hn, hd]
    refine ⟨?_, ?_, ?_⟩
    · intro hd' hn'
      have ht : res.hasRatio = true := by rw [hR]; simpa using hd'
      simp only [compute_expected, hn, hd]
      rw [if_neg (by simp [ht]), if_neg (not_lt.mpr hn')]
    · intro hd'
      have hf : res.hasRatio = false := by rw [hR]; simpa using not_lt.mpr hd'
      refine ⟨hf, ?_⟩
      simp only [compute_expected]
      rw [if_pos (by simp [hf])]
    · intro hn'
      rcases hhr : res.hasRatio with _ | _
      · simp only [compute_expected]
        rw [if_pos (by simp [hhr])]
      · simp only [compute_expected, hn, hd]
        rw [if_neg (by simp [hhr]), if_pos hn']
  · intro hcase
    have hf : res.hasRatio = false := by
      rcases hcase with h | h <;> simp [ParseResult.hasRatio, h]
    refine ⟨hf, ?_⟩
    simp only [compute_expected]
    rw [if_pos (by simp [hf])]

/-- Witness for C5 (amended): right 100 with ratio 3:7 gives expected
left `round(300/7) = 43`, left 70 gives expected right
`round(490/3) = 163`; a reading with the ratio missing entirely has
`has_ratio` false and both expected values None. -/
theorem c5_expected_amended_witness :
    compute_expected (some 70) (some 100) reading37 = (some 43, some 163) ∧
    readingBad.hasRatio = false ∧
    compute_expected (some 50) (some 80) readingBad = (none, none) := by
  refine ⟨?_, ?_, ?_⟩
  · have h := ((c5_expected_amended (some 70) (some 100) reading37).1 3 7 rfl rfl).1
      (by norm_num) (by norm_num)
    rw [h]
    have e1 : pyRound ((100 : ℚ) * (3 / 7)) = 43 := by
      have hf : ⌊(100 : ℚ) * (3 / 7)⌋ = 42 := by
        rw [Int.floor_eq_iff] <;> norm_num
      unfold pyRound
      rw [hf]
      norm_num
    have e2 : pyRound ((70 : ℚ) * (7 / 3)) = 163 := by
      have hf : ⌊(70 : ℚ) * (7 / 3)⌋ = 163 := by
        rw [Int.floor_eq_iff] <;> norm_num
      unfold pyRound
      rw [hf]
      norm_num
    simp [e1, e2]
  · exact ((c5_expected_amended (some 50) (some 80) readingBad).2 (Or.inl rfl)).1
  · exact ((c5_expected_amended (some 50) (some 80) readingBad).2 (Or.inl rfl)).2

/-! ## C6: candidate scoring -/

/-- Modelled from the claim's words: "+10 if both sides are positive;
+4 if either side is within 1e-6 of 1; +4 if both sides are ≤ 10000
plus +2 more if both are ≤ 1000; +3 for an explicit decimal; +1 for an
inferred decimal; +1 if numerator ≠ denominator" (exact inequality). -/
def scoreSpecLiteral (num den : ℚ) (explicit_decimal inferred_decimal : Bool) : ℤ :=
  (if num > 0 ∧ den > 0 then 10 else 0) +
  (if |num - 1| < 1/1000000 ∨ |den - 1| < 1/1000000 then 4 else 0) +
  (if num ≤ 10000 ∧ den ≤ 10000 then 4 else 0) +
  (if num ≤ 1000 ∧ den ≤ 1000 then 2 else 0) +
  (if explicit_decimal then 3 else 0) +
  (if inferred_decimal then 1 else 0) +
  (if num ≠ den then 1 else 0)

/-- The claim's description amended at its last clause: the final +1 is
granted when the two sides differ by MORE than 1e-6, not merely when
they are unequal. -/
def scoreSpecAmended (num den : ℚ) (explicit_decimal inferred_decimal : Bool) : ℤ :=
  (if num > 0 ∧ den > 0 then 10 else 0) +
  (if |num - 1| < 1/1000000 ∨ |den - 1| < 1/1000000 then 4 else 0) +
  (if num ≤ 10000 ∧ den ≤ 10000 then 4 else 0) +
  (if num ≤ 1000 ∧ den ≤ 1000 then 2 else 0) +
  (if explicit_decimal then 3 else 0) +
  (if inferred_decimal then 1 else 0) +
  (if |num - den| > 1/1000000 then 1 else 0)

/-- C6 counterexample.  At numerator 1 and denominator 1 + 1e-7 the
code scores 20 (the sides differ by no more than 1e-6, so no +1), while
the claimed function scores 21 (the sides are unequal). -/
theorem c6_score_counterexample :
    score_ratio 1 (1 + 1/10000000) false false = 20 ∧
    scoreSpecLiteral 1 (1 + 1/10000000) false false = 21 := by
  have habs : |(1 : ℚ) - (1 + 1/10000000)| = 1/10000000 := by
    rw [abs_sub_comm]
    norm_num
  constructor
  · simp only [score_ratio, habs]
    norm_num
  · simp only [scoreSpecLiteral, habs]
    norm_num

set_option maxHeartbeats 4000000 in
/-- C6 (amended).  The scoring function equals, for all inputs: +10 if
both sides positive; +4 if either side within 1e-6 of 1; +4 if both
≤ 10000 plus +2 if both ≤ 1000; +3 for an explicit decimal; +1 for an
inferred decimal; +1 if the sides differ by more than 1e-6.  With the
other arguments fixed, the score with an explicit decimal is strictly
greater than without. -/
theorem c6_score_amended (num den : ℚ) (explicit_decimal inferred_decimal : Bool) :
    score_ratio num den explicit_decimal inferred_decimal =
      scoreSpecAmended num den explicit_decimal inferred_decimal ∧
    score_ratio num den false inferred_decimal <
      score_ratio num den true inferred_decimal := by
  constructor
  · unfold score_ratio scoreSpecAmended
    dsimp only
    by_cases h1 : 0 < num ∧ 0 < den <;>
    by_cases h2 : |num - 1| < (1000000 : ℚ)⁻¹ ∨ |den - 1| < (1000000 : ℚ)⁻¹ <;>
    by_cases h3 : num ≤ 10000 ∧ den ≤ 10000 <;>
    by_cases h4 : num ≤ 1000 ∧ den ≤ 1000 <;>
    by_cases h7 : (1000000 : ℚ)⁻¹ < |num - den| <;>
    cases explicit_decimal <;> cases inferred_decimal <;>
    simp [h1, h2, h3, h4, h7]
  · unfold score_ratio
    dsimp only
    by_cases h1 : 0 < num ∧ 0 < den <;>
    by_cases h2 : |num - 1| < (1000000 : ℚ)⁻¹ ∨ |den - 1| < (1000000 : ℚ)⁻¹ <;>
    by_cases h3 : num ≤ 10000 ∧ den ≤ 10000 <;>
    by_cases h4 : num ≤ 1000 ∧ den ≤ 1000 <;>
    by_cases h7 : (1000000 : ℚ)⁻¹ < |num - den| <;>
    cases inferred_decimal <;>
    simp [h1, h2, h3, h4, h7]

/-! ## C7: the 1-vs-7 shape classifier -/

/-- Modelled from the claim's words: foreground density over "the
central vertical third of columns" (columns `w/3 ≤ x < 2w/3`). -/
def vertRatioThird (w h : ℕ) (pix : ℕ → ℕ → Bool) : ℚ :=
  let lo := w / 3
  let hi := 2 * w / 3
  (rectCount pix lo hi 0 h : ℚ) / ((h : ℚ) * (max 1 (hi - lo) : ℚ))

/-- Modelled from the claim's words: the classifier with the vertical
density taken over the central third of columns, decision ladder as in
the claim. -/
def classifySpecThird (w h : ℕ) (pix : ℕ → ℕ → Bool) : Option Char :=
  if w < 2 ∨ h < 2 then none
  else
    let top_ratio := topRatioOf w h pix
    let vert_ratio := vertRatioThird w h pix
    let upper_right_ratio := urRatioOf w h pix
    if top_ratio ≥ 1/2 ∧ vert_ratio < 7/10 then some '7'
    else if top_ratio ≤ 7/20 ∧ vert_ratio ≥ 13/20 then some '1'
    else if upper_right_ratio > 7/20 ∧ top_ratio > 2/5 then some '7'
    else if vert_ratio > upper_right_ratio + 1/5 then some '1'
    else none

/-- The classifier as described by the amended claim: the vertical
density is taken over a three-column band centered at `w/2`
(columns `max 0 (w/2 - 1)` to `min w (w/2 + 2) - 1`), the decision
ladder unchanged. -/
def classifySpecBand (w h : ℕ) (pix : ℕ → ℕ → Bool) : Option Char :=
  if w < 2 ∨ h < 2 then none
  else
    let top_ratio := topRatioOf w h pix
    let vert_ratio := vertRatioOf w h pix
    let upper_right_ratio := urRatioOf w h pix
    if top_ratio ≥ 1/2 ∧ vert_ratio < 7/10 then some '7'
    else if top_ratio ≤ 7/20 ∧ vert_ratio ≥ 13/20 then some '1'
    else if upper_right_ratio > 7/20 ∧ top_ratio > 2/5 then some '7'
    else if vert_ratio > upper_right_ratio + 1/5 then some '1'
    else none

/-- 15x10 crop: columns 6-8 fully set, plus a patch at columns 10-12,
rows 2-4.  Its 3-column central band is solid (density 1) while the
central third of columns (5-9) has density 3/5. -/
def pixA : ℕ → ℕ → Bool := fun x y =>
  decide ((x = 6 ∨ x = 7 ∨ x = 8) ∨ (2 ≤ y ∧ y ≤ 4 ∧ 10 ≤ x ∧ x ≤ 12))

/-- 5x4 crop with top-quarter density 3/5 and central-band vertical
density 1/2. -/
def pixB : ℕ → ℕ → Bool := fun x y =>
  decide ((y = 0 ∧ 1 ≤ x ∧ x ≤ 3) ∨ (1 ≤ y ∧ x = 2))

lemma pixA_top : topRatioOf 15 10 pixA = 1/5 := by
  unfold topRatioOf
  norm_num
  rw [show rectCount pixA 0 15 0 2 = 6 from by decide]
  norm_num

lemma pixA_vert : vertRatioOf 15 10 pixA = 1 := by
  unfold vertRatioOf
  norm_num
  rw [show rectCount pixA 6 9 0 10 = 30 from by decide]
  norm_num

lemma pixA_ur : urRatioOf 15 10 pixA = 19/40 := by
  unfold urRatioOf
  norm_num
  rw [show rectCount pixA 7 15 0 5 = 19 from by decide]
  norm_num

lemma pixA_third : vertRatioThird 15 10 pixA = 3/5 := by
  unfold vertRatioThird
  norm_num
  rw [show rectCount pixA 5 10 0 10 = 30 from by decide]
  norm_num

/-- C7 counterexample.  On the 15-wide crop `pixA` the code classifies
"1" (its 3-column central band is solid), while the claimed computation
over the central third of columns is inconclusive: the vertical density
is not taken over the central third. -/
theorem c7_classifier_counterexample :
    classify_digit_1_7 15 10 pixA = some '1' ∧
    classifySpecThird 15 10 pixA = none := by
  constructor
  · unfold classify_digit_1_7
    rw [if_neg (by norm_num)]
    dsimp only
    rw [pixA_top, pixA_vert, pixA_ur]
    norm_num
  · unfold classifySpecThird
    rw [if_neg (by norm_num)]
    dsimp only
    rw [pixA_top, pixA_third, pixA_ur]
    norm_num

/-- C7 (amended).  The classifier computes the three densities over the
top quarter of rows, a 3-column band centered at the middle column
(not the central third), and the upper-right quadrant, deciding in the
claimed order; and any crop (at least 2x2) with top density 3/5 and
central-band vertical density 1/2 classifies "7" by the first rule. -/
theorem c7_classifier_amended :
    (∀ (w h : ℕ) (pix : ℕ → ℕ → Bool),
      classify_digit_1_7 w h pix = classifySpecBand w h pix) ∧
    (∀ (w h : ℕ) (pix : ℕ → ℕ → Bool), ¬(w < 2 ∨ h < 2) →
      topRatioOf w h pix = 3/5 → vertRatioOf w h pix = 1/2 →
      classify_digit_1_7 w h pix = some '7') := by
  constructor
  · intro w h pix
    rfl
  · intro w h pix hg ht hv
    unfold classify_digit_1_7
    rw [if_neg hg]
    dsimp only
    rw [ht, hv]
    norm_num

/-- Witness for C7 (amended) on the 5x4 crop `pixB` (top density 3/5,
vertical density 1/2). -/
theorem c7_classifier_amended_witness :
    classify_digit_1_7 5 4 pixB = some '7' := by
  refine c7_classifier_amended.2 5 4 pixB (by norm_num) ?_ ?_
  · unfold topRatioOf
    norm_num
    rw [show rectCount pixB 0 5 0 1 = 3 from by decide]
    norm_num
  · unfold vertRatioOf
    norm_num
    rw [show rectCount pixB 1 4 0 4 = 6 from by decide]
    norm_num

/-! ## C8: the gap-split fallback -/

/-- Specification of the argmin scan: starting from a seed whose count
is its own column count, the result's count is its column's count, the
result is the seed or a scanned column, and its count is minimal. -/
lemma gapScan_spec (f : ℕ → ℕ) :
    ∀ (xs : List ℕ) (b : ℕ × ℕ), b.2 = f b.1 →
      (gapScan f xs b).2 = f (gapScan f xs b).1 ∧
      ((gapScan f xs b).1 = b.1 ∨ (gapScan f xs b).1 ∈ xs) ∧
      (gapScan f xs b).2 ≤ b.2 ∧
      (∀ x ∈ xs, (gapScan f xs b).2 ≤ f x) := by
  intro xs
  induction xs with
  | nil =>
      intro b hb
      exact ⟨hb, Or.inl rfl, le_refl _, by simp⟩
  | cons x t ih =>
      intro b hb
      by_cases hx : f x < b.2
      · rw [show gapScan f (x :: t) b = gapScan f t (x, f x) from by
          rw [gapScan, if_pos hx]]
        obtain ⟨g1, g2, g3, g4⟩ := ih (x, f x) rfl
        refine ⟨g1, ?_, ?_, ?_⟩
        · rcases g2 with hh | hh
          · exact Or.inr (by rw [hh]; exact List.mem_cons_self x t)
          · exact Or.inr (List.mem_cons_of_mem x hh)
        · exact le_trans g3 (le_of_lt hx)
        · intro y hy
          rcases List.mem_cons.mp hy with hh | hh
          · rw [hh]
            exact g3
          · exact g4 y hh
      · rw [show gapScan f (x :: t) b = gapScan f t b from by
          rw [gapScan, if_neg hx]]
        obtain ⟨g1, g2, g3, g4⟩ := ih b hb
        refine ⟨g1, ?_, g3, ?_⟩
        · rcases g2 with hh | hh
          · exact Or.inl hh
          · exact Or.inr (List.mem_cons_of_mem x hh)
        · intro y hy
          rcases List.mem_cons.mp hy with hh | hh
          · rw [hh]
            exact le_trans g3 (not_lt.mp hx)
          · exact g4 y hh

/-- C8 (amended).  Whenever the gap-split fallback returns a split
column, that column lies in the scanned middle band
`int(0.25 w) ≤ c < int(0.75 w)`, it has the fewest foreground pixels
among the scanned columns, and that minimum does not exceed
`max 2 (int(0.15 h))` — the source applies a floor of 2 to the claimed
15%-of-height rejection threshold. -/
theorem c8_gap_amended (w h : ℕ) (pix : ℕ → ℕ → Bool) (c : ℕ)
    (hc : split_ratio_by_gap w h pix = some c) :
    (w / 4 ≤ c ∧ c < 3 * w / 4) ∧
    (∀ x, w / 4 ≤ x → x < 3 * w / 4 → colCount pix c h ≤ colCount pix x h) ∧
    colCount pix c h ≤ max 2 (3 * h / 20) := by
  unfold split_ratio_by_gap at hc
  by_cases hg : w < 6 ∨ h < 4
  · rw [if_pos hg] at hc
    cases hc
  · rw [if_neg hg] at hc
    rcases hl : (List.range (3 * w / 4 - w / 4)).map (w / 4 + ·) with _ | ⟨x, xs⟩ <;>
      rw [hl] at hc
    · cases hc
    · dsimp only at hc
      obtain ⟨g1, g2, g3, g4⟩ :=
        gapScan_spec (fun i => colCount pix i h) xs (x, colCount pix x h) rfl
      by_cases h1 :
          (gapScan (fun i => colCount pix i h) xs (x, colCount pix x h)).2 >
            max 2 (3 * h / 20)
      · rw [if_pos h1] at hc
        cases hc
      · rw [if_neg h1] at hc
        by_cases h2 :
            (gapScan (fun i => colCount pix i h) xs (x, colCount pix x h)).1 < 2 ∨
              w - ((gapScan (fun i => colCount pix i h) xs (x, colCount pix x h)).1 + 1) < 2
        · rw [if_pos h2] at hc
          cases hc
        · rw [if_neg h2] at hc
          injection hc with hc1
          have hdiv : w / 4 + (3 * w / 4 - w / 4) = 3 * w / 4 := by omega
          have hmem : c ∈ (List.range (3 * w / 4 - w / 4)).map (w / 4 + ·) := by
            rw [hl]
            rcases g2 with hh | hh
            · rw [← hc1, hh]
              exact List.mem_cons_self x xs
            · exact List.mem_cons_of_mem x (hc1 ▸ hh)
          have hcount : (gapScan (fun i => colCount pix i h) xs (x, colCount pix x h)).2 =
              colCount pix c h := by
            rw [g1, hc1]
          obtain ⟨i, hi, hix⟩ := List.mem_map.mp hmem
          rw [List.mem_range] at hi
          refine ⟨⟨by omega, by omega⟩, ?_, ?_⟩
          · intro y hy1 hy2
            have hymem : y ∈ (List.range (3 * w / 4 - w / 4)).map (w / 4 + ·) := by
              refine List.mem_map.mpr ⟨y - w / 4, ?_, by omega⟩
              rw [List.mem_range]
              omega
            rw [hl] at hymem
            rcases List.mem_cons.mp hymem with hh | hh
            · rw [← hcount, hh]
              exact g3
            · rw [← hcount]
              exact g4 y hh
          · rw [← hcount]
            exact not_lt.mp h1

/-- 8x10 binary image whose scanned columns 2-5 have counts 3, 2, 3, 3:
the minimum count 2 exceeds 15% of the height (1.5) but not the floor
of 2 that the source applies. -/
def pixC : ℕ → ℕ → Bool := fun x y =>
  decide ((x = 3 ∧ y < 2) ∨ ((x = 2 ∨ x = 4 ∨ x = 5) ∧ y < 3))

/-- C8 counterexample.  On `pixC` the minimum scanned column count (2,
at column 3) exceeds 15% of the image height (1.5), yet the code
returns a split at column 3 instead of rejecting: its threshold is
`max(2, int(0.15 * h))`, not plain 15% of height. -/
theorem c8_gap_counterexample :
    split_ratio_by_gap 8 10 pixC = some 3 ∧
    colCount pixC 3 10 = 2 ∧
    (15 : ℚ) / 100 * 10 < 2 := by
  refine ⟨by decide, by decide, by norm_num⟩

/-- Witness for C8 (amended) on `pixC`: the returned column 3 is in the
scanned band, minimal there, and within the source's threshold. -/
theorem c8_gap_amended_witness :
    (8 / 4 ≤ 3 ∧ 3 < 3 * 8 / 4) ∧
    (∀ x, 8 / 4 ≤ x → x < 3 * 8 / 4 → colCount pixC 3 10 ≤ colCount pixC x 10) ∧
    colCount pixC 3 10 ≤ max 2 (3 * 10 / 20) :=
  c8_gap_amended 8 10 pixC 3 (by decide)

/-! ## C9: the fallback number heuristic of `OcrParser.parse` -/

/-- C9 counterexample.  For the text "Ratio 0:7\n5 9" a ratio is found
(0, 7) and both items and price are missing, and after removing the
ratio values the numbers [5, 9] remain; the claim predicts
`items = 45`-style assignment (here `items = 5`, `price = 9`), but the
parser skips the heuristic entirely because the numerator 0 is falsy in
the source's `ratio_num and ratio_den` test. -/
theorem c9_fallback_counterexample :
    (parse "Ratio 0:7\n5 9").ratio_num = some 0 ∧
    (parse "Ratio 0:7\n5 9").ratio_den = some 7 ∧
    (parse "Ratio 0:7\n5 9").items = none ∧
    (parse "Ratio 0:7\n5 9").listing_price = none ∧
    (extract_ratio_numbers (pyStrip "Ratio 0:7\n5 9".data)).foldl remove_once
      (extract_numbers (pyStrip "Ratio 0:7\n5 9".data)) = [5, 9] := by
  refine ⟨by decide, by decide, by decide, by decide, by decide⟩

/-- C9 (amended).  For every recognized text in which a ratio with both
components nonzero is found: all numbers of the text are collected, one
occurrence of the integer value of each side of every ratio-shaped
match is removed, and — when any numbers remain — a still-missing items
field receives the minimum and a still-missing price field the maximum
of the remaining numbers. -/
theorem c9_fallback_amended (text : String) (n d : ℚ)
    (hr : find_ratio (parsedLines (pyStrip text.data)) = (some n, some d))
    (hn : n ≠ 0) (hd : d ≠ 0)
    (hnums : (extract_ratio_numbers (pyStrip text.data)).foldl remove_once
        (extract_numbers (pyStrip text.data)) ≠ []) :
    (parse text).ratio_num = some n ∧ (parse text).ratio_den = some d ∧
    (find_items (parsedLines (pyStrip text.data)) = none →
      (parse text).items =
        some ((minList ((extract_ratio_numbers (pyStrip text.data)).foldl remove_once
          (extract_numbers (pyStrip text.data))) : ℕ) : ℤ)) ∧
    (find_price (parsedLines (pyStrip text.data)) = none →
      (parse text).listing_price =
        some ((maxList ((extract_ratio_numbers (pyStrip text.data)).foldl remove_once
          (extract_numbers (pyStrip text.data))) : ℕ) : ℤ)) := by
  by_cases hraw : pyStrip text.data = []
  · rw [hraw] at hr
    rw [show find_ratio (parsedLines ([] : List Char)) = (none, none) from rfl] at hr
    simp at hr
  · unfold parse
    rw [if_neg hraw]
    dsimp only
    rw [hr]
    dsimp only
    rcases hitems : find_items (parsedLines (pyStrip text.data)) with _ | v <;>
      rcases hprice : find_price (parsedLines (pyStrip text.data)) with _ | p <;>
        simp only [hitems, hprice, Option.isNone_none, Option.isNone_some,
          Bool.true_or, Bool.or_true, Bool.true_and, Bool.false_or,
          Bool.or_false, Bool.and_self, truthyQ, hn, hd, decide_not,
          ne_eq, not_false_eq_true, decide_True, Bool.and_true, if_true,
          Bool.false_and, if_false, Bool.and_false]
    · rw [if_pos hnums]
      exact ⟨rfl, rfl, fun _ => rfl, fun _ => rfl⟩
    · rw [if_pos hnums]
      refine ⟨rfl, rfl, fun _ => rfl, fun hq => ?_⟩
      cases hq
    · rw [if_pos hnums]
      refine ⟨rfl, rfl, fun hq => ?_, fun _ => rfl⟩
      cases hq
    · refine ⟨rfl, rfl, fun hq => ?_, fun hq => ?_⟩ <;> cases hq

/-- Witness for C9 (amended): the text "Ratio 3:7\n120 45" yields ratio
(3, 7), remaining numbers [120, 45], items 45 and price 120. -/
theorem c9_fallback_amended_witness :
    (parse "Ratio 3:7\n120 45").ratio_num = some 3 ∧
    (parse "Ratio 3:7\n120 45").ratio_den = some 7 ∧
    (parse "Ratio 3:7\n120 45").items = some 45 ∧
    (parse "Ratio 3:7\n120 45").listing_price = some 120 := by
  have h := c9_fallback_amended "Ratio 3:7\n120 45" 3 7 (by decide)
    (by norm_num) (by norm_num) (by decide)
  have hnums : (extract_ratio_numbers (pyStrip "Ratio 3:7\n120 45".data)).foldl
      remove_once (extract_numbers (pyStrip "Ratio 3:7\n120 45".data)) = [120, 45] := by
    decide
  have h3 := h.2.2.1 (by decide)
  have h4 := h.2.2.2 (by decide)
  rw [hnums] at h3 h4
  exact ⟨h.1, h.2.1, by rw [h3]; decide, by rw [h4]; decide⟩

end PoeHelper
